import Mathlib

/-!
Shallow embedding of the jmanero/bitcoind-exporter metric collectors.

The Go sources translate as follows:
* `pkg/bitcoind/blockchain.go` — the live `BlockchainCollector` (8 descriptors).
* `pkg/bitcoind/blockchain_collector.go` — the `IndexCollector`, `MempoolCollector`
  and `PeersCollector` (the leading superseded blockchain-collector variant in that
  file is dead code: it is not constructed by `main.go` and duplicates the type in
  `blockchain.go`, so it is not embedded).
* `main.go` — the startup/shutdown control flow of `Main` and `Serve`.

Modelling conventions: a `prometheus.Desc` is its name plus its ordered label
names (help strings carry no verified content and are omitted); float64 sample
values are modelled as rationals — the collectors perform no floating-point
arithmetic, they only forward decoded fields, and every concrete value evaluated
below is exactly representable; Go maps decode to association lists; an RPC call
or JSON decode that can fail is an `Option` input, `none` meaning the failure
branch that logs and returns without emitting. Each `out <- metric` send in a
`Collect` body becomes one `Option Metric` element of the returned list (the Go
code discards the `NewConstMetric` error and would send a nil metric on arity
mismatch, so the element is `none` exactly when the construction failed).
-/

namespace BitcoindExporter

/-- Metric kinds used by the collectors (`prometheus.CounterValue`,
`prometheus.GaugeValue`, `prometheus.UntypedValue`). -/
inductive ValueType where
  | counter
  | gauge
  | untyped
  deriving DecidableEq, Repr

/-- A metric descriptor: name and ordered label names (`prometheus.NewDesc`). -/
structure Desc where
  name : String
  labelNames : List String
  deriving DecidableEq, Repr

/-- One realized sample: descriptor, kind, value, ordered label values. -/
structure Metric where
  desc : Desc
  vtype : ValueType
  value : ℚ
  labelValues : List String
  deriving DecidableEq, Repr

/-- `prometheus.NewConstMetric`: succeeds exactly when the number of label
values matches the descriptor's label-name arity. -/
def NewConstMetric (desc : Desc) (vt : ValueType) (value : ℚ)
    (labelValues : List String) : Option Metric :=
  if labelValues.length = desc.labelNames.length then
    some ⟨desc, vt, value, labelValues⟩
  else
    none

/-! ### Blockchain collector (`pkg/bitcoind/blockchain.go`) -/

/-- Label names shared by all blockchain and mempool descriptors. -/
def ChainLabels : List String := ["chain"]

def DescBlocks : Desc := ⟨"bitcoind_blockchain_blocks", ChainLabels⟩

def DescHeaders : Desc := ⟨"bitcoind_blockchain_headers", ChainLabels⟩

def DescDifficulty : Desc := ⟨"bitcoind_blockchain_difficulty", ChainLabels⟩

def DescMedianTime : Desc := ⟨"bitcoind_blockchain_median_time", ChainLabels⟩

def DescVerificationProgress : Desc :=
  ⟨"bitcoind_blockchain_verification_progress", ChainLabels⟩

def DescInitialBlockDownload : Desc :=
  ⟨"bitcoind_initial_block_download", ChainLabels⟩

def DescSizeOnDisk : Desc := ⟨"bitcoind_blockchain_size_on_disk", ChainLabels⟩

def DescPruneHeight : Desc := ⟨"bitcoind_blockchain_prune_height", ChainLabels⟩

/-- `BlockchainDescriptors` from `blockchain.go` (8 descriptors, in order). -/
def BlockchainDescriptors : List Desc :=
  [DescBlocks, DescHeaders, DescDifficulty, DescMedianTime,
   DescVerificationProgress, DescInitialBlockDownload, DescSizeOnDisk,
   DescPruneHeight]

/-- Decoded `getblockchaininfo` response fields used by the collectors. -/
structure GetBlockChainInfoResult where
  chain : String
  blocks : Int
  headers : Int
  difficulty : ℚ
  medianTime : Int
  verificationProgress : ℚ
  initialBlockDownload : Bool
  sizeOnDisk : Int
  pruned : Bool
  pruneHeight : Int
  deriving DecidableEq, Repr

/-- `BlockchainCollector.Collect`: emits 8 samples from a decoded
`getblockchaininfo` response, or nothing when the RPC call failed. -/
def BlockchainCollect (res : Option GetBlockChainInfoResult) :
    List (Option Metric) :=
  match res with
  | none => []
  | some info =>
      [NewConstMetric DescBlocks ValueType.counter (info.blocks : ℚ) [info.chain],
       NewConstMetric DescHeaders ValueType.counter (info.headers : ℚ) [info.chain],
       NewConstMetric DescDifficulty ValueType.gauge info.difficulty [info.chain],
       NewConstMetric DescMedianTime ValueType.gauge (info.medianTime : ℚ) [info.chain],
       NewConstMetric DescVerificationProgress ValueType.gauge
         info.verificationProgress [info.chain],
       NewConstMetric DescInitialBlockDownload ValueType.untyped
         (if info.initialBlockDownload then 1 else 0) [info.chain],
       NewConstMetric DescSizeOnDisk ValueType.gauge (info.sizeOnDisk : ℚ) [info.chain],
       NewConstMetric DescPruneHeight ValueType.gauge (info.pruneHeight : ℚ) [info.chain]]

/-! ### Mempool collector (`pkg/bitcoind/blockchain_collector.go`) -/

def DescMempoolSize : Desc := ⟨"bitcoind_mempool_size", ChainLabels⟩

def DescMempoolBytes : Desc := ⟨"bitcoind_mempool_bytes", ChainLabels⟩

def DescMempoolUsage : Desc := ⟨"bitcoind_mempool_usage", ChainLabels⟩

def DescMempoolTotalFee : Desc := ⟨"bitcoind_mempool_total_fee", ChainLabels⟩

def DescMempoolMaxBytes : Desc := ⟨"bitcoind_mempool_max_bytes", ChainLabels⟩

def DescMempoolMinFee : Desc := ⟨"bitcoind_mempool_min_fee", ChainLabels⟩

def DescMempoolMinRelayTxFee : Desc :=
  ⟨"bitcoind_mempool_min_relay_tx_fee", ChainLabels⟩

def DescMempoolIncrementalRelayFee : Desc :=
  ⟨"bitcoind_mempool_incremental_relay_fee", ChainLabels⟩

def DescMempoolUnbroadcastCount : Desc :=
  ⟨"bitcoind_mempool_unbroadcast_count", ChainLabels⟩

def DescMempoolFullRBF : Desc := ⟨"bitcoind_mempool_fullrbf", ChainLabels⟩

/-- `MempoolDescriptors` (10 descriptors, in order). -/
def MempoolDescriptors : List Desc :=
  [DescMempoolSize, DescMempoolBytes, DescMempoolUsage, DescMempoolTotalFee,
   DescMempoolMaxBytes, DescMempoolMinFee, DescMempoolMinRelayTxFee,
   DescMempoolIncrementalRelayFee, DescMempoolUnbroadcastCount,
   DescMempoolFullRBF]

/-- Decoded `getmempoolinfo` response (`GetMempoolInfoResult`). -/
structure GetMempoolInfoResult where
  loaded : Bool
  fullRBF : Bool
  size : Int
  bytes : Int
  usage : Int
  totalFee : ℚ
  maxBytes : Int
  minFee : ℚ
  minRelayTXFee : ℚ
  incrementalRelayFee : ℚ
  unbroadcastCount : Int
  deriving DecidableEq, Repr

/-- `MempoolCollector.Collect`: `getblockchaininfo` (for the chain label) then
`getmempoolinfo`; a failure of either call or of the decode emits nothing. -/
def MempoolCollect (chainRes : Option GetBlockChainInfoResult)
    (mempoolRes : Option GetMempoolInfoResult) : List (Option Metric) :=
  match chainRes, mempoolRes with
  | some chain, some info =>
      [NewConstMetric DescMempoolSize ValueType.gauge (info.size : ℚ) [chain.chain],
       NewConstMetric DescMempoolBytes ValueType.gauge (info.bytes : ℚ) [chain.chain],
       NewConstMetric DescMempoolUsage ValueType.gauge (info.usage : ℚ) [chain.chain],
       NewConstMetric DescMempoolTotalFee ValueType.gauge info.totalFee [chain.chain],
       NewConstMetric DescMempoolMaxBytes ValueType.gauge (info.maxBytes : ℚ) [chain.chain],
       NewConstMetric DescMempoolMinFee ValueType.gauge info.minFee [chain.chain],
       NewConstMetric DescMempoolMinRelayTxFee ValueType.gauge
         info.minRelayTXFee [chain.chain],
       NewConstMetric DescMempoolIncrementalRelayFee ValueType.gauge
         info.incrementalRelayFee [chain.chain],
       NewConstMetric DescMempoolUnbroadcastCount ValueType.gauge
         (info.unbroadcastCount : ℚ) [chain.chain],
       if info.fullRBF then
         NewConstMetric DescMempoolFullRBF ValueType.untyped 1 [chain.chain]
       else
         NewConstMetric DescMempoolFullRBF ValueType.untyped 0 [chain.chain]]
  | _, _ => []

/-! ### Index collector (`pkg/bitcoind/blockchain_collector.go`) -/

/-- Label names for the index descriptors. -/
def IndexLabels : List String := ["chain", "index"]

/-- `IndexDescriptors[0]`: named as the synced flag. -/
def DescIndexSynced : Desc := ⟨"bitcoind_index_synced", IndexLabels⟩

/-- `IndexDescriptors[1]`: named as the best-block height. -/
def DescIndexBestBlockHeight : Desc :=
  ⟨"bitcoind_index_best_block_height", IndexLabels⟩

/-- `IndexDescriptors` (2 descriptors, in order). -/
def IndexDescriptors : List Desc := [DescIndexSynced, DescIndexBestBlockHeight]

/-- One entry of the decoded `getindexinfo` response map. -/
structure IndexInfo where
  synced : Bool
  bestBlockHeight : Int
  deriving DecidableEq, Repr

/-- The decoded `getindexinfo` response: index name to properties. -/
def GetIndexInfoResponse : Type := List (String × IndexInfo)

/-- The per-entry loop body of `IndexCollector.Collect`, transcribed exactly:
the entry's `BestBlockHeight` is passed to `IndexDescriptors[0]` (the descriptor
named `bitcoind_index_synced`), and both branches of the `Synced` conditional
build the constant `1` against `IndexDescriptors[1]` (the descriptor named
`bitcoind_index_best_block_height`). -/
def IndexEntryMetrics (chain : String) (name : String) (props : IndexInfo) :
    List (Option Metric) :=
  [NewConstMetric DescIndexSynced ValueType.counter
     (props.bestBlockHeight : ℚ) [chain, name],
   if props.synced then
     NewConstMetric DescIndexBestBlockHeight ValueType.untyped 1 [chain, name]
   else
     NewConstMetric DescIndexBestBlockHeight ValueType.untyped 1 [chain, name]]

/-- The range-over-map loop of `IndexCollector.Collect`. -/
def IndexEntriesMetrics (chain : String) :
    List (String × IndexInfo) → List (Option Metric)
  | [] => []
  | (name, props) :: rest =>
      IndexEntryMetrics chain name props ++ IndexEntriesMetrics chain rest

/-- `IndexCollector.Collect`: `getblockchaininfo` then `getindexinfo`; a
failure of either call or of the decode emits nothing. -/
def IndexCollect (chainRes : Option GetBlockChainInfoResult)
    (indexRes : Option (List (String × IndexInfo))) : List (Option Metric) :=
  match chainRes, indexRes with
  | some chain, some info => IndexEntriesMetrics chain.chain info
  | _, _ => []

/-! ### Peer-id rendering (`strconv.FormatInt(int64(peer.ID), 16)`) -/

/-- The lowercase digit characters used by `strconv`: `0`-`9` then `a`-`f`. -/
def hexDigitChar (d : Nat) : Char :=
  if d < 10 then Char.ofNat (48 + d) else Char.ofNat (87 + d)

/-- Base-16 digit characters of `n`, least significant first, by repeated
division as in `strconv.formatBits`; the first argument is structural fuel
bounding the number of divisions. -/
def hexDigitsAux : Nat → Nat → List Char
  | 0, _ => []
  | _ + 1, 0 => []
  | fuel + 1, n + 1 => hexDigitChar ((n + 1) % 16) :: hexDigitsAux fuel ((n + 1) / 16)

/-- Lowercase base-16 rendering of a natural number, no prefix, no padding. -/
def natToHex (n : Nat) : String :=
  if n = 0 then "0" else String.mk (hexDigitsAux n n).reverse

/-- `strconv.FormatInt(i, 16)`: a leading minus sign for negative values,
otherwise the bare lowercase hex digits. -/
def formatIntHex (i : Int) : String :=
  if i < 0 then "-" ++ natToHex i.natAbs else natToHex i.toNat

/-! ### Peers collector (`pkg/bitcoind/blockchain_collector.go`) -/

/-- Label names shared by the 15 scalar per-peer descriptors. -/
def PeerLabels : List String :=
  ["chain", "peer_id", "peer_addr", "peer_transport", "peer_version"]

/-- Label names of the two per-message-type descriptors. -/
def PeerMsgLabels : List String :=
  ["chain", "peer_id", "peer_addr", "peer_transport", "peer_version", "msg_type"]

def DescPeerLastSend : Desc := ⟨"bitcoind_peer_last_send", PeerLabels⟩

def DescPeerLastRecv : Desc := ⟨"bitcoind_peer_last_recv", PeerLabels⟩

def DescPeerLastTransaction : Desc := ⟨"bitcoind_peer_last_transaction", PeerLabels⟩

def DescPeerLastBlock : Desc := ⟨"bitcoind_peer_last_block", PeerLabels⟩

def DescPeerBytesSent : Desc := ⟨"bitcoind_peer_bytes_sent", PeerLabels⟩

def DescPeerBytesRecv : Desc := ⟨"bitcoind_peer_bytes_recv", PeerLabels⟩

def DescPeerTimeOffset : Desc := ⟨"bitcoind_peer_time_offset", PeerLabels⟩

def DescPeerPingTime : Desc := ⟨"bitcoind_peer_ping_time", PeerLabels⟩

def DescPeerPingMin : Desc := ⟨"bitcoind_peer_ping_min", PeerLabels⟩

def DescPeerStartingHeight : Desc := ⟨"bitcoind_peer_starting_height", PeerLabels⟩

def DescPeerPreSyncedHeaders : Desc := ⟨"bitcoind_peer_presynced_headers", PeerLabels⟩

def DescPeerSyncedHeaders : Desc := ⟨"bitcoind_peer_synced_headers", PeerLabels⟩

def DescPeerSyncedBlocks : Desc := ⟨"bitcoind_peer_synced_blocks", PeerLabels⟩

def DescPeerAddrProcessed : Desc := ⟨"bitcoind_peer_addr_processed", PeerLabels⟩

def DescPeerAddrRateLimited : Desc := ⟨"bitcoind_peer_addr_rate_limited", PeerLabels⟩

def DescPeerBytesSentPerMsg : Desc :=
  ⟨"bitcoind_peer_bytes_sent_per_msg", PeerMsgLabels⟩

def DescPeerBytesRecvPerMsg : Desc :=
  ⟨"bitcoind_peer_bytes_recv_per_msg", PeerMsgLabels⟩

/-- `PeersDescriptors` (17 descriptors, in order). -/
def PeersDescriptors : List Desc :=
  [DescPeerLastSend, DescPeerLastRecv, DescPeerLastTransaction, DescPeerLastBlock,
   DescPeerBytesSent, DescPeerBytesRecv, DescPeerTimeOffset, DescPeerPingTime,
   DescPeerPingMin, DescPeerStartingHeight, DescPeerPreSyncedHeaders,
   DescPeerSyncedHeaders, DescPeerSyncedBlocks, DescPeerAddrProcessed,
   DescPeerAddrRateLimited, DescPeerBytesSentPerMsg, DescPeerBytesRecvPerMsg]

/-- Decoded `getpeerinfo` record: the embedded `btcjson.GetPeerInfoResult`
fields used by the collector plus the v24.0.0 extension fields. Fields absent
from the JSON decode to their zero values. -/
structure GetPeerInfoResult where
  id : Int
  addr : String
  subVer : String
  lastSend : Int
  lastRecv : Int
  bytesSent : Int
  bytesRecv : Int
  timeOffset : Int
  pingTime : ℚ
  startingHeight : Int
  network : String
  lastTransaction : Int
  lastBlock : Int
  pingMin : ℚ
  preSyncedHeaders : Int
  syncedHeaders : Int
  syncedBlocks : Int
  addrProcessed : Int
  addrRateLimited : Int
  minFeeFilter : ℚ
  bytesRecvPerMessage : List (String × Int)
  bytesSentPerMessage : List (String × Int)
  deriving DecidableEq, Repr

/-- The per-peer loop body of `PeersCollector.Collect`: 15 scalar samples, then
one sample per `bytessent_per_msg` entry, then one per `bytesrecv_per_msg`
entry, every one labeled with the hex-rendered peer id. -/
def PeerMetrics (chain : String) (peer : GetPeerInfoResult) :
    List (Option Metric) :=
  let peerID := formatIntHex peer.id
  [NewConstMetric DescPeerLastSend ValueType.gauge (peer.lastSend : ℚ)
     [chain, peerID, peer.addr, peer.network, peer.subVer],
   NewConstMetric DescPeerLastRecv ValueType.gauge (peer.lastRecv : ℚ)
     [chain, peerID, peer.addr, peer.network, peer.subVer],
   NewConstMetric DescPeerLastTransaction ValueType.gauge (peer.lastTransaction : ℚ)
     [chain, peerID, peer.addr, peer.network, peer.subVer],
   NewConstMetric DescPeerLastBlock ValueType.gauge (peer.lastBlock : ℚ)
     [chain, peerID, peer.addr, peer.network, peer.subVer],
   NewConstMetric DescPeerBytesSent ValueType.gauge (peer.bytesSent : ℚ)
     [chain, peerID, peer.addr, peer.network, peer.subVer],
   NewConstMetric DescPeerBytesRecv ValueType.gauge (peer.bytesRecv : ℚ)
     [chain, peerID, peer.addr, peer.network, peer.subVer],
   NewConstMetric DescPeerTimeOffset ValueType.gauge (peer.timeOffset : ℚ)
     [chain, peerID, peer.addr, peer.network, peer.subVer],
   NewConstMetric DescPeerPingTime ValueType.gauge peer.pingTime
     [chain, peerID, peer.addr, peer.network, peer.subVer],
   NewConstMetric DescPeerPingMin ValueType.gauge peer.pingMin
     [chain, peerID, peer.addr, peer.network, peer.subVer],
   NewConstMetric DescPeerStartingHeight ValueType.gauge (peer.startingHeight : ℚ)
     [chain, peerID, peer.addr, peer.network, peer.subVer],
   NewConstMetric DescPeerPreSyncedHeaders ValueType.counter (peer.preSyncedHeaders : ℚ)
     [chain, peerID, peer.addr, peer.network, peer.subVer],
   NewConstMetric DescPeerSyncedHeaders ValueType.counter (peer.syncedHeaders : ℚ)
     [chain, peerID, peer.addr, peer.network, peer.subVer],
   NewConstMetric DescPeerSyncedBlocks ValueType.counter (peer.syncedBlocks : ℚ)
     [chain, peerID, peer.addr, peer.network, peer.subVer],
   NewConstMetric DescPeerAddrProcessed ValueType.counter (peer.addrProcessed : ℚ)
     [chain, peerID, peer.addr, peer.network, peer.subVer],
   NewConstMetric DescPeerAddrRateLimited ValueType.counter (peer.addrRateLimited : ℚ)
     [chain, peerID, peer.addr, peer.network, peer.subVer]]
  ++ peer.bytesSentPerMessage.map (fun entry =>
       NewConstMetric DescPeerBytesSentPerMsg ValueType.counter (entry.2 : ℚ)
         [chain, peerID, peer.addr, peer.network, peer.subVer, entry.1])
  ++ peer.bytesRecvPerMessage.map (fun entry =>
       NewConstMetric DescPeerBytesRecvPerMsg ValueType.counter (entry.2 : ℚ)
         [chain, peerID, peer.addr, peer.network, peer.subVer, entry.1])

/-- The range-over-peers loop of `PeersCollector.Collect`. -/
def PeersListMetrics (chain : String) :
    List GetPeerInfoResult → List (Option Metric)
  | [] => []
  | peer :: rest => PeerMetrics chain peer ++ PeersListMetrics chain rest

/-- `PeersCollector.Collect`: `getblockchaininfo` then `getpeerinfo`; a failure
of either call or of the decode emits nothing. -/
def PeersCollect (chainRes : Option GetBlockChainInfoResult)
    (peersRes : Option (List GetPeerInfoResult)) : List (Option Metric) :=
  match chainRes, peersRes with
  | some chain, some peers => PeersListMetrics chain.chain peers
  | _, _ => []

/-! ### Describe (`Describe` methods iterate a fixed package-level slice) -/

/-- `BlockchainCollector.Describe`: the argument models one call. -/
def BlockchainDescribe : Unit → List Desc := fun _ => BlockchainDescriptors

/-- `MempoolCollector.Describe`. -/
def MempoolDescribe : Unit → List Desc := fun _ => MempoolDescriptors

/-- `PeersCollector.Describe`. -/
def PeersDescribe : Unit → List Desc := fun _ => PeersDescriptors

/-- `IndexCollector.Describe`. -/
def IndexDescribe : Unit → List Desc := fun _ => IndexDescriptors

/-! ### One scrape: the registry fans out to all four collectors -/

/-- The RPC outcomes feeding one scrape. Each collector issues its own RPC
calls: the mempool, peers and index collectors each fetch `getblockchaininfo`
themselves before their own data call, so each call gets its own field; `none`
is a failed call or a failed decode. -/
structure ScrapeInputs where
  bcInfo : Option GetBlockChainInfoResult
  mpChain : Option GetBlockChainInfoResult
  mpInfo : Option GetMempoolInfoResult
  peersChain : Option GetBlockChainInfoResult
  peersInfo : Option (List GetPeerInfoResult)
  idxChain : Option GetBlockChainInfoResult
  idxInfo : Option (List (String × IndexInfo))
  deriving DecidableEq, Repr

/-- The per-collector sample sets produced by one scrape. -/
structure ScrapeOutput where
  blockchain : List (Option Metric)
  mempool : List (Option Metric)
  peers : List (Option Metric)
  indexes : List (Option Metric)
  deriving DecidableEq, Repr

/-- One scrape: the registry invokes every registered collector. -/
def Scrape (i : ScrapeInputs) : ScrapeOutput :=
  ⟨BlockchainCollect i.bcInfo,
   MempoolCollect i.mpChain i.mpInfo,
   PeersCollect i.peersChain i.peersInfo,
   IndexCollect i.idxChain i.idxInfo⟩

/-! ### Process lifecycle (`main.go`) -/

/-- What ends the serve loop once the listener is bound: a clean
signal-triggered shutdown, a failed graceful shutdown, or an accept error. -/
inductive ServeEvent where
  | shutdownClean
  | shutdownError
  | acceptError
  deriving DecidableEq, Repr

/-- Result of `Serve`: whether it returned an error, and whether the TCP
listener was bound. -/
structure ServeResult where
  failed : Bool
  bound : Bool
  deriving DecidableEq, Repr

/-- `Serve`: `net.Listen` first (returning its error on failure, before any
serving), then the select between context cancellation (graceful shutdown,
whose error is returned) and an accept error (returned). -/
def Serve (bindOk : Bool) (event : ServeEvent) : ServeResult :=
  if bindOk then
    match event with
    | ServeEvent.shutdownClean => ⟨false, true⟩
    | ServeEvent.shutdownError => ⟨true, true⟩
    | ServeEvent.acceptError => ⟨true, true⟩
  else ⟨true, false⟩

/-- Outcomes of the fallible startup steps of `Main`, in program order. -/
structure MainInputs where
  loggerOk : Bool
  rpcOk : Bool
  regBlockchainOk : Bool
  regMempoolOk : Bool
  regPeersOk : Bool
  regIndexOk : Bool
  bindOk : Bool
  event : ServeEvent
  deriving DecidableEq, Repr

/-- Result of `Main`: the process exit code and whether the listener was ever
bound. -/
structure MainResult where
  exitCode : Nat
  listenerBound : Bool
  deriving DecidableEq, Repr

/-- `Main`: logger init, RPC client creation plus ping, four collector
registrations — each returning 1 on failure before `Serve` runs — then `Serve`;
a serve error exits 1, otherwise 0. -/
def Main (i : MainInputs) : MainResult :=
  if !i.loggerOk then ⟨1, false⟩
  else if !i.rpcOk then ⟨1, false⟩
  else if !i.regBlockchainOk then ⟨1, false⟩
  else if !i.regMempoolOk then ⟨1, false⟩
  else if !i.regPeersOk then ⟨1, false⟩
  else if !i.regIndexOk then ⟨1, false⟩
  else
    let s := Serve i.bindOk i.event
    ⟨if s.failed then 1 else 0, s.bound⟩

/-! ### Concrete inputs used by the end-to-end scenarios -/

/-- The `getblockchaininfo` response of end-to-end scenario 1: every decimal in
the scenario is exactly representable (5.2e13 and 6e11 are integers below
2 to the 53rd, 0.9999 is forwarded unchanged by the collector). -/
def scenario1Info : GetBlockChainInfoResult :=
  ⟨"main", 800000, 800000, 52000000000000, 1700000000, 9999 / 10000, false,
   600000000000, false, 0⟩

/-- A chain response contributing only the `chain` label (all other fields at
their zero values). -/
def mainChainInfo : GetBlockChainInfoResult :=
  ⟨"main", 0, 0, 0, 0, 0, false, 0, false, 0⟩

/-- The single peer record of end-to-end scenario 2: id 7, one
`bytessent_per_msg` entry, every absent field decoded to its zero value. -/
def examplePeer : GetPeerInfoResult :=
  { id := 7, addr := "1.2.3.4:8333", subVer := "/Satoshi:24.0/",
    lastSend := 0, lastRecv := 0, bytesSent := 0, bytesRecv := 0,
    timeOffset := 0, pingTime := 0, startingHeight := 0, network := "ipv4",
    lastTransaction := 0, lastBlock := 0, pingMin := 0, preSyncedHeaders := 0,
    syncedHeaders := 0, syncedBlocks := 0, addrProcessed := 0,
    addrRateLimited := 0, minFeeFilter := 0,
    bytesRecvPerMessage := [], bytesSentPerMessage := [("inv", 1000)] }

/-- The label values shared by every sample of scenario 2. -/
def examplePeerLabels : List String :=
  ["main", "7", "1.2.3.4:8333", "ipv4", "/Satoshi:24.0/"]

/-- The first sample the blockchain collector emits for scenario 1. -/
def mBlocks800k : Metric := ⟨DescBlocks, ValueType.counter, 800000, ["main"]⟩

/-- The first sample the peers collector emits for scenario 2. -/
def mPeerLastSend7 : Metric :=
  ⟨DescPeerLastSend, ValueType.gauge, 0, examplePeerLabels⟩

/-- A `getindexinfo` response with a single unsynced entry, exercising the
index collector's synced/unsynced conditional. -/
def unsyncedTxIndex : List (String × IndexInfo) := [("txindex", ⟨false, 100⟩)]

/-! ### Shape lemmas: every emitted element is a well-formed sample -/

/-- A `NewConstMetric` call whose label-value count matches the descriptor
arity reduces to the constructed sample. -/
theorem newConstMetric_eq_some (d : Desc) (vt : ValueType) (v : ℚ)
    (ls : List String) (h : ls.length = d.labelNames.length) :
    NewConstMetric d vt v ls = some ⟨d, vt, v, ls⟩ := by
  simp [NewConstMetric, h]

/-- Every element the blockchain collector sends is a constructed sample whose
descriptor is one of `BlockchainDescriptors` and whose label values match the
descriptor arity. -/
theorem blockchainCollect_shape (res : Option GetBlockChainInfoResult) :
    ∀ om ∈ BlockchainCollect res, ∃ m, om = some m ∧
      m.desc ∈ BlockchainDescriptors ∧
      m.labelValues.length = m.desc.labelNames.length ∧
      m.labelValues = [(res.map GetBlockChainInfoResult.chain).getD ""] := by
  intro om hom
  cases res with
  | none => simp [BlockchainCollect] at hom
  | some info =>
      simp only [BlockchainCollect, List.mem_cons, List.not_mem_nil,
        or_false] at hom
      rcases hom with h | h | h | h | h | h | h | h <;> subst h <;>
        exact ⟨_, newConstMetric_eq_some _ _ _ _ rfl,
          by simp [BlockchainDescriptors], rfl, rfl⟩

/-- Every element the mempool collector sends is a constructed sample whose
descriptor is one of `MempoolDescriptors` and whose label values match the
descriptor arity. -/
theorem mempoolCollect_shape (chainRes : Option GetBlockChainInfoResult)
    (mempoolRes : Option GetMempoolInfoResult) :
    ∀ om ∈ MempoolCollect chainRes mempoolRes, ∃ m, om = some m ∧
      m.desc ∈ MempoolDescriptors ∧
      m.labelValues.length = m.desc.labelNames.length := by
  intro om hom
  cases chainRes with
  | none => simp [MempoolCollect] at hom
  | some chain =>
      cases mempoolRes with
      | none => simp [MempoolCollect] at hom
      | some info =>
          simp only [MempoolCollect, List.mem_cons, List.not_mem_nil,
            or_false] at hom
          rcases hom with h | h | h | h | h | h | h | h | h | h <;>
            [skip; skip; skip; skip; skip; skip; skip; skip; skip;
             (rcases Bool.eq_false_or_eq_true info.fullRBF with hf | hf <;>
                simp only [hf, Bool.false_eq_true, if_true, if_false] at h)] <;>
            subst h <;>
            exact ⟨_, newConstMetric_eq_some _ _ _ _ rfl,
              by simp [MempoolDescriptors], rfl⟩

/-- Every element the peers collector sends for one peer is a constructed
sample whose descriptor is one of `PeersDescriptors`, whose label values match
the descriptor arity, and whose second label value is the hex-rendered peer
id. -/
theorem peerMetrics_shape (chain : String) (peer : GetPeerInfoResult) :
    ∀ om ∈ PeerMetrics chain peer, ∃ m, om = some m ∧
      m.desc ∈ PeersDescriptors ∧
      m.labelValues.length = m.desc.labelNames.length ∧
      m.labelValues[1]? = some (formatIntHex peer.id) := by
  intro om hom
  simp only [PeerMetrics, List.mem_append, List.mem_cons, List.not_mem_nil,
    or_false, List.mem_map] at hom
  rcases hom with ((h|h|h|h|h|h|h|h|h|h|h|h|h|h|h) | ⟨e, he, h⟩) | ⟨e, he, h⟩ <;>
    subst h <;>
    exact ⟨_, newConstMetric_eq_some _ _ _ _ rfl, by simp [PeersDescriptors],
      rfl, rfl⟩

/-- `peerMetrics_shape` lifted over the peer list. -/
theorem peersListMetrics_shape (chain : String)
    (peers : List GetPeerInfoResult) :
    ∀ om ∈ PeersListMetrics chain peers, ∃ m, om = some m ∧
      m.desc ∈ PeersDescriptors ∧
      m.labelValues.length = m.desc.labelNames.length := by
  induction peers with
  | nil => intro om hom; simp [PeersListMetrics] at hom
  | cons peer rest ih =>
      intro om hom
      rw [PeersListMetrics, List.mem_append] at hom
      rcases hom with h | h
      · obtain ⟨m, hm, hdesc, hlen, _⟩ := peerMetrics_shape chain peer om h
        exact ⟨m, hm, hdesc, hlen⟩
      · exact ih om h

/-- Every element the peers collector sends is a constructed sample whose
descriptor is one of `PeersDescriptors` and whose label values match the
descriptor arity. -/
theorem peersCollect_shape (chainRes : Option GetBlockChainInfoResult)
    (peersRes : Option (List GetPeerInfoResult)) :
    ∀ om ∈ PeersCollect chainRes peersRes, ∃ m, om = some m ∧
      m.desc ∈ PeersDescriptors ∧
      m.labelValues.length = m.desc.labelNames.length := by
  intro om hom
  cases chainRes with
  | none => simp [PeersCollect] at hom
  | some chain =>
      cases peersRes with
      | none => simp [PeersCollect] at hom
      | some peers => exact peersListMetrics_shape chain.chain peers om hom

/-- Every element the index collector sends for one map entry is a constructed
sample whose descriptor is one of `IndexDescriptors` and whose label values
are exactly the chain and index names. -/
theorem indexEntryMetrics_shape (chain name : String) (props : IndexInfo) :
    ∀ om ∈ IndexEntryMetrics chain name props, ∃ m, om = some m ∧
      m.desc ∈ IndexDescriptors ∧
      m.labelValues.length = m.desc.labelNames.length ∧
      m.labelValues = [chain, name] := by
  intro om hom
  simp only [IndexEntryMetrics, List.mem_cons, List.not_mem_nil,
    or_false] at hom
  rcases hom with h | h
  · subst h
    exact ⟨_, newConstMetric_eq_some _ _ _ _ rfl, by simp [IndexDescriptors],
      rfl, rfl⟩
  · rcases Bool.eq_false_or_eq_true props.synced with hs | hs <;>
      simp only [hs, Bool.false_eq_true, if_true, if_false] at h <;>
      subst h <;>
      exact ⟨_, newConstMetric_eq_some _ _ _ _ rfl, by simp [IndexDescriptors],
        rfl, rfl⟩

/-- `indexEntryMetrics_shape` lifted over the decoded map. -/
theorem indexEntriesMetrics_shape (chain : String)
    (entries : List (String × IndexInfo)) :
    ∀ om ∈ IndexEntriesMetrics chain entries, ∃ m, om = some m ∧
      m.desc ∈ IndexDescriptors ∧
      m.labelValues.length = m.desc.labelNames.length := by
  induction entries with
  | nil => intro om hom; simp [IndexEntriesMetrics] at hom
  | cons entry rest ih =>
      intro om hom
      obtain ⟨name, props⟩ := entry
      rw [IndexEntriesMetrics, List.mem_append] at hom
      rcases hom with h | h
      · obtain ⟨m, hm, hdesc, hlen, _⟩ := indexEntryMetrics_shape chain name props om h
        exact ⟨m, hm, hdesc, hlen⟩
      · exact ih om h

/-- Every element the index collector sends is a constructed sample whose
descriptor is one of `IndexDescriptors` and whose label values match the
descriptor arity. -/
theorem indexCollect_shape (chainRes : Option GetBlockChainInfoResult)
    (indexRes : Option (List (String × IndexInfo))) :
    ∀ om ∈ IndexCollect chainRes indexRes, ∃ m, om = some m ∧
      m.desc ∈ IndexDescriptors ∧
      m.labelValues.length = m.desc.labelNames.length := by
  intro om hom
  cases chainRes with
  | none => simp [IndexCollect] at hom
  | some chain =>
      cases indexRes with
      | none => simp [IndexCollect] at hom
      | some entries => exact indexEntriesMetrics_shape chain.chain entries om hom

/-! ### Properties of the hex rendering -/

/-- With enough fuel, `hexDigitsAux` computes the base-16 digit characters. -/
theorem hexDigitsAux_eq_digits :
    ∀ fuel n, n ≤ fuel →
      hexDigitsAux fuel n = (Nat.digits 16 n).map hexDigitChar := by
  intro fuel
  induction fuel with
  | zero =>
      intro n hn
      obtain rfl : n = 0 := Nat.le_zero.mp hn
      simp [hexDigitsAux]
  | succ f ih =>
      intro n hn
      match n with
      | 0 => simp [hexDigitsAux]
      | k + 1 =>
          rw [hexDigitsAux, Nat.digits_def' (by norm_num : 1 < 16) (Nat.succ_pos k),
            List.map_cons]
          congr 1
          exact ih ((k + 1) / 16)
            (le_trans (Nat.le_of_lt_succ (Nat.div_lt_self (Nat.succ_pos k) (by norm_num)))
              (Nat.le_of_succ_le_succ hn))

/-- `hexDigitChar` is injective on base-16 digits. -/
theorem hexDigitChar_injOn :
    ∀ a < 16, ∀ b < 16, hexDigitChar a = hexDigitChar b → a = b := by decide

/-- No base-16 digit renders as the minus sign. -/
theorem hexDigitChar_ne_dash : ∀ d < 16, hexDigitChar d ≠ '-' := by decide

/-- Only the digit 0 renders as the character 0. -/
theorem hexDigitChar_eq_zero_char : ∀ d < 16, hexDigitChar d = '0' → d = 0 := by
  decide

/-- Every base-16 digit renders inside the lowercase hex alphabet. -/
theorem hexDigitChar_mem_alphabet :
    ∀ d < 16, hexDigitChar d ∈ "0123456789abcdef".data := by decide

/-- Mapping `hexDigitChar` over lists of base-16 digits is injective. -/
theorem map_hexDigitChar_inj :
    ∀ xs ys : List Nat, (∀ x ∈ xs, x < 16) → (∀ y ∈ ys, y < 16) →
      xs.map hexDigitChar = ys.map hexDigitChar → xs = ys := by
  intro xs
  induction xs with
  | nil =>
      intro ys _ _ h
      cases ys with
      | nil => rfl
      | cons b ys => simp at h
  | cons a xs ih =>
      intro ys hx hy h
      cases ys with
      | nil => simp at h
      | cons b ys =>
          simp only [List.map_cons, List.cons.injEq] at h
          have hab := hexDigitChar_injOn a (hx a (by simp)) b (hy b (by simp)) h.1
          have hxs := ih ys (fun x hm => hx x (by simp [hm]))
            (fun y hm => hy y (by simp [hm])) h.2
          rw [hab, hxs]

/-- The character list behind `natToHex`. -/
theorem natToHex_data (n : Nat) (hn : n ≠ 0) :
    (natToHex n).data = ((Nat.digits 16 n).map hexDigitChar).reverse := by
  rw [natToHex, if_neg hn, hexDigitsAux_eq_digits n n le_rfl]

/-- A nonzero number never renders as the string 0. -/
theorem natToHex_ne_zero_string (b : Nat) (hb : b ≠ 0) : natToHex b ≠ "0" := by
  intro h
  have hd : (natToHex b).data = ['0'] := by rw [h]
  rw [natToHex_data b hb] at hd
  have hd' : (Nat.digits 16 b).map hexDigitChar = ['0'] := by
    have := congrArg List.reverse hd
    simpa using this
  cases hdig : Nat.digits 16 b with
  | nil => rw [hdig] at hd'; simp at hd'
  | cons d rest =>
      rw [hdig] at hd'
      simp only [List.map_cons, List.cons.injEq] at hd'
      obtain ⟨hc, hrest⟩ := hd'
      have hrest' : rest = [] := by simpa using hrest
      have hdlt : d < 16 := Nat.digits_lt_base (by norm_num) (by rw [hdig]; simp)
      have hd0 : d = 0 := hexDigitChar_eq_zero_char d hdlt hc
      have hofd := Nat.ofDigits_digits 16 b
      rw [hdig, hrest', hd0] at hofd
      simp [Nat.ofDigits] at hofd
      exact hb hofd.symm

/-- `natToHex` is injective: distinct numbers yield distinct hex strings. -/
theorem natToHex_injective : Function.Injective natToHex := by
  have h0 : natToHex 0 = "0" := rfl
  intro a b h
  by_cases ha : a = 0 <;> by_cases hb : b = 0
  · rw [ha, hb]
  · exact absurd (by rw [ha, h0] at h; exact h.symm) (natToHex_ne_zero_string b hb)
  · exact absurd (by rw [hb, h0] at h; exact h) (natToHex_ne_zero_string a ha)
  · have hd := congrArg String.data h
    rw [natToHex_data a ha, natToHex_data b hb] at hd
    have hmap : (Nat.digits 16 a).map hexDigitChar =
        (Nat.digits 16 b).map hexDigitChar := List.reverse_injective hd
    have := map_hexDigitChar_inj (Nat.digits 16 a) (Nat.digits 16 b)
      (fun x hx => Nat.digits_lt_base (by norm_num) hx)
      (fun y hy => Nat.digits_lt_base (by norm_num) hy) hmap
    exact Nat.digits.injective 16 this

/-- Every character of a hex rendering lies in the lowercase hex alphabet. -/
theorem natToHex_chars_in_alphabet (n : Nat) :
    ∀ c ∈ (natToHex n).data, c ∈ "0123456789abcdef".data := by
  intro c hc
  by_cases hn : n = 0
  · rw [hn] at hc
    have h0 : (natToHex 0).data = ['0'] := rfl
    rw [h0] at hc
    have hc' : c = '0' := by simpa using hc
    rw [hc']
    decide
  · rw [natToHex_data n hn, List.mem_reverse, List.mem_map] at hc
    obtain ⟨d, hd, rfl⟩ := hc
    exact hexDigitChar_mem_alphabet d (Nat.digits_lt_base (by norm_num) hd)

/-- The minus sign never occurs in the hex rendering of a natural number. -/
theorem natToHex_no_dash (n : Nat) : ∀ c ∈ (natToHex n).data, c ≠ '-' := by
  intro c hc
  have halpha := natToHex_chars_in_alphabet n c hc
  intro hdash
  rw [hdash] at halpha
  simp at halpha

/-- No zero-padding: for a nonzero number the leading character is never the
digit 0. -/
theorem natToHex_no_leading_zero (n : Nat) (hn : n ≠ 0) :
    (natToHex n).data.head? ≠ some '0' := by
  have hne : Nat.digits 16 n ≠ [] := Nat.digits_ne_nil_iff_ne_zero.mpr hn
  rw [natToHex_data n hn, List.head?_reverse, List.getLast?_map,
    List.getLast?_eq_getLast _ hne]
  intro h
  replace h : hexDigitChar ((Nat.digits 16 n).getLast hne) = '0' := by
    simpa using h
  have hlast := List.getLast_mem hne
  have hlt : (Nat.digits 16 n).getLast hne < 16 :=
    Nat.digits_lt_base (by norm_num) hlast
  have hzero : (Nat.digits 16 n).getLast hne = 0 :=
    hexDigitChar_eq_zero_char _ hlt h
  exact Nat.getLast_digit_ne_zero 16 hn hzero

/-- A hex rendering of a natural number never carries a sign. -/
theorem natToHex_ne_dash_append (n : Nat) (s : String) :
    natToHex n ≠ "-" ++ s := by
  intro h
  have hd := congrArg String.data h
  have happ : ("-" ++ s).data = '-' :: s.data := rfl
  rw [happ] at hd
  have hmem : '-' ∈ (natToHex n).data := by
    rw [hd]
    exact List.mem_cons_self _ _
  exact natToHex_no_dash n _ hmem rfl

/-- `formatIntHex` is injective: peers with distinct ids always receive
distinct `peer_id` label values. -/
theorem formatIntHex_injective : Function.Injective formatIntHex := by
  intro a b h
  rw [formatIntHex, formatIntHex] at h
  by_cases ha : a < 0 <;> by_cases hb : b < 0
  · rw [if_pos ha, if_pos hb] at h
    have hd := congrArg String.data h
    have h1 : ("-" ++ natToHex a.natAbs).data = '-' :: (natToHex a.natAbs).data := rfl
    have h2 : ("-" ++ natToHex b.natAbs).data = '-' :: (natToHex b.natAbs).data := rfl
    rw [h1, h2] at hd
    have hdata : (natToHex a.natAbs).data = (natToHex b.natAbs).data :=
      (List.cons.injEq _ _ _ _ ▸ hd).2
    have habs := natToHex_injective (String.ext hdata)
    omega
  · rw [if_pos ha, if_neg hb] at h
    exact absurd h.symm (natToHex_ne_dash_append _ _)
  · rw [if_neg ha, if_pos hb] at h
    exact absurd h (natToHex_ne_dash_append _ _)
  · rw [if_neg ha, if_neg hb] at h
    have htn := natToHex_injective h
    omega

/-! ### Data-call failure lemmas -/

/-- A failed `getmempoolinfo` call or decode emits nothing regardless of the
chain lookup. -/
theorem mempoolCollect_none_data (c : Option GetBlockChainInfoResult) :
    MempoolCollect c none = [] := by cases c <;> rfl

/-- A failed `getpeerinfo` call or decode emits nothing regardless of the
chain lookup. -/
theorem peersCollect_none_data (c : Option GetBlockChainInfoResult) :
    PeersCollect c none = [] := by cases c <;> rfl

/-- A failed `getindexinfo` call or decode emits nothing regardless of the
chain lookup. -/
theorem indexCollect_none_data (c : Option GetBlockChainInfoResult) :
    IndexCollect c none = [] := by cases c <;> rfl

/-! ### Claim theorems -/

/-- Claim C1, evidence of the code bug: on a single unsynced `txindex` entry at
best block height 100, the index collector emits the height value 100 as a
Counter under the descriptor named `bitcoind_index_synced`, and the constant 1
under the descriptor named `bitcoind_index_best_block_height` even though the
entry is not synced. The claim's pairing (synced flag 0/1 under the synced
descriptor, height under the height descriptor) matches the descriptor names
and the spec's stated intent; the code swaps the two descriptors and emits 1
from both branches of the synced conditional. -/
theorem C1_index_collector_actual_emission :
    IndexCollect (some mainChainInfo) (some unsyncedTxIndex) =
      [some ⟨DescIndexSynced, ValueType.counter, 100, ["main", "txindex"]⟩,
       some ⟨DescIndexBestBlockHeight, ValueType.untyped, 1, ["main", "txindex"]⟩] ∧
    DescIndexSynced.name = "bitcoind_index_synced" ∧
    DescIndexBestBlockHeight.name = "bitcoind_index_best_block_height" := by
  decide

/-- Claim C2, counterexample: on the scenario 1 response the blockchain
collector does not emit 9 samples. -/
theorem C2_not_nine_samples :
    ¬ (BlockchainCollect (some scenario1Info)).length = 9 := by decide

/-- Claim C2 as amended: on the scenario 1 response the blockchain collector
emits exactly 8 samples, all labeled `chain="main"`, with the
initial-block-download flag sample at value 0; no pruned-flag sample exists
because the live collector defines no pruned descriptor. -/
theorem C2_scenario1_eight_samples :
    BlockchainCollect (some scenario1Info) =
      [some ⟨DescBlocks, ValueType.counter, 800000, ["main"]⟩,
       some ⟨DescHeaders, ValueType.counter, 800000, ["main"]⟩,
       some ⟨DescDifficulty, ValueType.gauge, 52000000000000, ["main"]⟩,
       some ⟨DescMedianTime, ValueType.gauge, 1700000000, ["main"]⟩,
       some ⟨DescVerificationProgress, ValueType.gauge, 9999 / 10000, ["main"]⟩,
       some ⟨DescInitialBlockDownload, ValueType.untyped, 0, ["main"]⟩,
       some ⟨DescSizeOnDisk, ValueType.gauge, 600000000000, ["main"]⟩,
       some ⟨DescPruneHeight, ValueType.gauge, 0, ["main"]⟩] := rfl

/-- Claim C3: failing any one RPC call of any one collector empties only that
collector's contribution to the scrape; each of the other three collectors
produces exactly the samples it produces when the call succeeds. -/
theorem C3_collector_failure_isolation (i : ScrapeInputs) :
    ((Scrape { i with bcInfo := none }).blockchain = [] ∧
     (Scrape { i with bcInfo := none }).mempool = (Scrape i).mempool ∧
     (Scrape { i with bcInfo := none }).peers = (Scrape i).peers ∧
     (Scrape { i with bcInfo := none }).indexes = (Scrape i).indexes) ∧
    ((Scrape { i with mpChain := none }).mempool = [] ∧
     (Scrape { i with mpChain := none }).blockchain = (Scrape i).blockchain ∧
     (Scrape { i with mpChain := none }).peers = (Scrape i).peers ∧
     (Scrape { i with mpChain := none }).indexes = (Scrape i).indexes) ∧
    ((Scrape { i with mpInfo := none }).mempool = [] ∧
     (Scrape { i with mpInfo := none }).blockchain = (Scrape i).blockchain ∧
     (Scrape { i with mpInfo := none }).peers = (Scrape i).peers ∧
     (Scrape { i with mpInfo := none }).indexes = (Scrape i).indexes) ∧
    ((Scrape { i with peersChain := none }).peers = [] ∧
     (Scrape { i with peersChain := none }).blockchain = (Scrape i).blockchain ∧
     (Scrape { i with peersChain := none }).mempool = (Scrape i).mempool ∧
     (Scrape { i with peersChain := none }).indexes = (Scrape i).indexes) ∧
    ((Scrape { i with peersInfo := none }).peers = [] ∧
     (Scrape { i with peersInfo := none }).blockchain = (Scrape i).blockchain ∧
     (Scrape { i with peersInfo := none }).mempool = (Scrape i).mempool ∧
     (Scrape { i with peersInfo := none }).indexes = (Scrape i).indexes) ∧
    ((Scrape { i with idxChain := none }).indexes = [] ∧
     (Scrape { i with idxChain := none }).blockchain = (Scrape i).blockchain ∧
     (Scrape { i with idxChain := none }).mempool = (Scrape i).mempool ∧
     (Scrape { i with idxChain := none }).peers = (Scrape i).peers) ∧
    ((Scrape { i with idxInfo := none }).indexes = [] ∧
     (Scrape { i with idxInfo := none }).blockchain = (Scrape i).blockchain ∧
     (Scrape { i with idxInfo := none }).mempool = (Scrape i).mempool ∧
     (Scrape { i with idxInfo := none }).peers = (Scrape i).peers) :=
  ⟨⟨rfl, rfl, rfl, rfl⟩,
   ⟨rfl, rfl, rfl, rfl⟩,
   ⟨mempoolCollect_none_data i.mpChain, rfl, rfl, rfl⟩,
   ⟨rfl, rfl, rfl, rfl⟩,
   ⟨peersCollect_none_data i.peersChain, rfl, rfl, rfl⟩,
   ⟨rfl, rfl, rfl, rfl⟩,
   ⟨indexCollect_none_data i.idxChain, rfl, rfl, rfl⟩⟩

/-- Claim C4: on the scenario 2 response (one peer, id 7, one
`bytessent_per_msg` entry) the peers collector emits exactly the 15 scalar
per-peer samples followed by exactly one bytes-sent-per-message sample with
`msg_type="inv"` and value 1000, every sample carrying the hex-rendered
`peer_id` label `"7"`. -/
theorem C4_scenario2_sample_set :
    PeersCollect (some mainChainInfo) (some [examplePeer]) =
      [some ⟨DescPeerLastSend, ValueType.gauge, 0, examplePeerLabels⟩,
       some ⟨DescPeerLastRecv, ValueType.gauge, 0, examplePeerLabels⟩,
       some ⟨DescPeerLastTransaction, ValueType.gauge, 0, examplePeerLabels⟩,
       some ⟨DescPeerLastBlock, ValueType.gauge, 0, examplePeerLabels⟩,
       some ⟨DescPeerBytesSent, ValueType.gauge, 0, examplePeerLabels⟩,
       some ⟨DescPeerBytesRecv, ValueType.gauge, 0, examplePeerLabels⟩,
       some ⟨DescPeerTimeOffset, ValueType.gauge, 0, examplePeerLabels⟩,
       some ⟨DescPeerPingTime, ValueType.gauge, 0, examplePeerLabels⟩,
       some ⟨DescPeerPingMin, ValueType.gauge, 0, examplePeerLabels⟩,
       some ⟨DescPeerStartingHeight, ValueType.gauge, 0, examplePeerLabels⟩,
       some ⟨DescPeerPreSyncedHeaders, ValueType.counter, 0, examplePeerLabels⟩,
       some ⟨DescPeerSyncedHeaders, ValueType.counter, 0, examplePeerLabels⟩,
       some ⟨DescPeerSyncedBlocks, ValueType.counter, 0, examplePeerLabels⟩,
       some ⟨DescPeerAddrProcessed, ValueType.counter, 0, examplePeerLabels⟩,
       some ⟨DescPeerAddrRateLimited, ValueType.counter, 0, examplePeerLabels⟩,
       some ⟨DescPeerBytesSentPerMsg, ValueType.counter, 1000,
         ["main", "7", "1.2.3.4:8333", "ipv4", "/Satoshi:24.0/", "inv"]⟩] := by
  decide

/-- Claim C5: every collector's `Describe` output is the same fixed descriptor
sequence on every call, and the descriptor of every sample any `Collect`
invocation emits belongs to that output. -/
theorem C5_describe_fixed_and_covers_collect :
    (∀ u v : Unit, BlockchainDescribe u = BlockchainDescribe v) ∧
    (∀ u v : Unit, MempoolDescribe u = MempoolDescribe v) ∧
    (∀ u v : Unit, PeersDescribe u = PeersDescribe v) ∧
    (∀ u v : Unit, IndexDescribe u = IndexDescribe v) ∧
    (∀ res, ∀ om ∈ BlockchainCollect res, ∀ m, om = some m →
        m.desc ∈ BlockchainDescribe ()) ∧
    (∀ cr mr, ∀ om ∈ MempoolCollect cr mr, ∀ m, om = some m →
        m.desc ∈ MempoolDescribe ()) ∧
    (∀ cr pr, ∀ om ∈ PeersCollect cr pr, ∀ m, om = some m →
        m.desc ∈ PeersDescribe ()) ∧
    (∀ cr ir, ∀ om ∈ IndexCollect cr ir, ∀ m, om = some m →
        m.desc ∈ IndexDescribe ()) := by
  refine ⟨fun _ _ => rfl, fun _ _ => rfl, fun _ _ => rfl, fun _ _ => rfl,
    ?_, ?_, ?_, ?_⟩
  · intro res om hom m hm
    obtain ⟨m', hm', hdesc, -, -⟩ := blockchainCollect_shape res om hom
    obtain rfl := Option.some.inj (hm'.symm.trans hm)
    exact hdesc
  · intro cr mr om hom m hm
    obtain ⟨m', hm', hdesc, -⟩ := mempoolCollect_shape cr mr om hom
    obtain rfl := Option.some.inj (hm'.symm.trans hm)
    exact hdesc
  · intro cr pr om hom m hm
    obtain ⟨m', hm', hdesc, -⟩ := peersCollect_shape cr pr om hom
    obtain rfl := Option.some.inj (hm'.symm.trans hm)
    exact hdesc
  · intro cr ir om hom m hm
    obtain ⟨m', hm', hdesc, -⟩ := indexCollect_shape cr ir om hom
    obtain rfl := Option.some.inj (hm'.symm.trans hm)
    exact hdesc

/-- Witness for C5 at a concrete scrape: the first scenario 1 sample's
descriptor appears in the blockchain `Describe` output. -/
theorem C5_describe_fixed_and_covers_collect_witness :
    mBlocks800k.desc ∈ BlockchainDescribe () :=
  C5_describe_fixed_and_covers_collect.2.2.2.2.1 (some scenario1Info)
    (some mBlocks800k) (by decide) mBlocks800k rfl

/-- Claim C6: every element a collector sends is a successfully constructed
sample — never a nil metric — whose label-value count equals its descriptor's
label-name arity. -/
theorem C6_label_arity_matches :
    (∀ res, ∀ om ∈ BlockchainCollect res, ∃ m, om = some m ∧
        m.labelValues.length = m.desc.labelNames.length) ∧
    (∀ cr mr, ∀ om ∈ MempoolCollect cr mr, ∃ m, om = some m ∧
        m.labelValues.length = m.desc.labelNames.length) ∧
    (∀ cr pr, ∀ om ∈ PeersCollect cr pr, ∃ m, om = some m ∧
        m.labelValues.length = m.desc.labelNames.length) ∧
    (∀ cr ir, ∀ om ∈ IndexCollect cr ir, ∃ m, om = some m ∧
        m.labelValues.length = m.desc.labelNames.length) := by
  refine ⟨?_, ?_, ?_, ?_⟩
  · intro res om hom
    obtain ⟨m, hm, -, hlen, -⟩ := blockchainCollect_shape res om hom
    exact ⟨m, hm, hlen⟩
  · intro cr mr om hom
    obtain ⟨m, hm, -, hlen⟩ := mempoolCollect_shape cr mr om hom
    exact ⟨m, hm, hlen⟩
  · intro cr pr om hom
    obtain ⟨m, hm, -, hlen⟩ := peersCollect_shape cr pr om hom
    exact ⟨m, hm, hlen⟩
  · intro cr ir om hom
    obtain ⟨m, hm, -, hlen⟩ := indexCollect_shape cr ir om hom
    exact ⟨m, hm, hlen⟩

/-- Witness for C6 at a concrete sample of scenario 1. -/
theorem C6_label_arity_matches_witness :
    ∃ m, some mBlocks800k = some m ∧
      m.labelValues.length = m.desc.labelNames.length :=
  C6_label_arity_matches.1 (some scenario1Info) (some mBlocks800k) (by decide)

/-- Claim C7: the exit code is 1 for every startup failure — logger init, RPC
client creation or ping, any collector registration — with the listener never
bound in those cases; 1 for a serve error (including a bind failure) or a
failed graceful shutdown; and 0 after a clean signal-triggered shutdown. -/
theorem C7_exit_codes (i : MainInputs) :
    ((i.loggerOk = false ∨ i.rpcOk = false ∨ i.regBlockchainOk = false ∨
      i.regMempoolOk = false ∨ i.regPeersOk = false ∨ i.regIndexOk = false) →
        Main i = ⟨1, false⟩) ∧
    (i.loggerOk = true → i.rpcOk = true → i.regBlockchainOk = true →
     i.regMempoolOk = true → i.regPeersOk = true → i.regIndexOk = true →
      ((i.bindOk = false → Main i = ⟨1, false⟩) ∧
       (i.bindOk = true → i.event = ServeEvent.shutdownClean →
          Main i = ⟨0, true⟩) ∧
       (i.bindOk = true → i.event ≠ ServeEvent.shutdownClean →
          Main i = ⟨1, true⟩))) := by
  obtain ⟨l, r, b1, b2, b3, b4, bd, ev⟩ := i
  cases l <;> cases r <;> cases b1 <;> cases b2 <;> cases b3 <;> cases b4 <;>
    cases bd <;> cases ev <;> simp [Main, Serve]

/-- Witness for C7: with every startup step succeeding and a clean shutdown,
the process exits 0 with the listener having been bound. -/
theorem C7_exit_codes_witness :
    Main ⟨true, true, true, true, true, true, true, ServeEvent.shutdownClean⟩ =
      ⟨0, true⟩ :=
  ((C7_exit_codes _).2 rfl rfl rfl rfl rfl rfl).2.1 rfl rfl

/-- Claim C8: the collectors keep no state between invocations — the struct
holds only the shared client and logger handles, which `Collect` never
mutates — so collection is a pure function of the decoded response and two
invocations on the same response yield identical sample sequences. -/
theorem C8_collect_idempotent (i : ScrapeInputs) :
    Scrape i = Scrape i ∧
    BlockchainCollect i.bcInfo = BlockchainCollect i.bcInfo ∧
    MempoolCollect i.mpChain i.mpInfo = MempoolCollect i.mpChain i.mpInfo ∧
    PeersCollect i.peersChain i.peersInfo =
      PeersCollect i.peersChain i.peersInfo ∧
    IndexCollect i.idxChain i.idxInfo = IndexCollect i.idxChain i.idxInfo :=
  ⟨rfl, rfl, rfl, rfl, rfl⟩

/-- Claim C9: a successfully decoded empty peer list and an empty index map
each produce zero samples, with no error path taken. -/
theorem C9_empty_responses_emit_nothing (chain : GetBlockChainInfoResult) :
    PeersCollect (some chain) (some []) = [] ∧
    IndexCollect (some chain) (some []) = [] :=
  ⟨rfl, rfl⟩

/-- Claim C10: every sample the peers collector emits for a peer carries, as
its `peer_id` label value, `strconv.FormatInt(id, 16)` — lowercase base-16
with no prefix and no zero-padding (255 renders as `ff`); the rendering is
injective, so distinct peer ids always receive distinct `peer_id` labels. -/
theorem C10_peer_id_hex_rendering :
    (∀ chain peer, ∀ om ∈ PeerMetrics chain peer, ∀ m, om = some m →
        m.labelValues[1]? = some (formatIntHex peer.id)) ∧
    formatIntHex 255 = "ff" ∧
    Function.Injective formatIntHex ∧
    (∀ n : Nat, ∀ c ∈ (natToHex n).data, c ∈ "0123456789abcdef".data) ∧
    (∀ n : Nat, n ≠ 0 → (natToHex n).data.head? ≠ some '0') := by
  refine ⟨?_, by decide, formatIntHex_injective, natToHex_chars_in_alphabet,
    natToHex_no_leading_zero⟩
  intro chain peer om hom m hm
  obtain ⟨m', hm', -, -, hid⟩ := peerMetrics_shape chain peer om hom
  obtain rfl := Option.some.inj (hm'.symm.trans hm)
  exact hid

/-- Witness for C10 at scenario 2: the first sample for the id-7 peer carries
the `peer_id` label value rendered from id 7. -/
theorem C10_peer_id_hex_rendering_witness :
    mPeerLastSend7.labelValues[1]? = some (formatIntHex examplePeer.id) :=
  C10_peer_id_hex_rendering.1 "main" examplePeer (some mPeerLastSend7)
    (by decide) mPeerLastSend7 rfl
